import Mathlib

/-!
Shallow embedding of the custom auto-scaling controller
(internal/autoscaler/autoscaler.go, internal/omnistrate_api/client.go,
internal/config/config.go) and proofs about the specified behavior.

Modelling conventions:
* Go `time.Time` values are abstract Nat instants; the zero time is `none`
  in an `Option Nat` (Go `IsZero`).  Durations are Nat (comparisons only).
* The provider is modelled by a script of events consumed by the loop:
  the select statement in waitForActiveState linearises to a list of
  `PollEvent`s, and the wall-clock timeout channel is modelled by a fuel
  bound (`maxTicks`) on how many select iterations run before the timeout
  channel fires.
* Each iteration of the outer convergence loop of ScaleToTarget consumes
  one `IterationEnv`: whether the caller context is already cancelled at
  iteration entry (the plain time.Sleep in the cooldown phase cannot see
  this; the poll select can), the wall clock at the cooldown check, the
  poll events for this iteration, the provider mutation outcome, and the
  time.Now() value recorded after a successful mutation.
* The interpreter returns the produced result together with the trace of
  externally visible actions (cooldown check, sleep, provider read,
  provider add/remove), the sequence of lock-released intermediate run
  states, and the times of successful mutations.
-/

namespace AutoscalerModel

/-- Go `type Status string` from internal/omnistrate_api/types.go. -/
abbrev Status := String

def ACTIVE : Status := "ACTIVE"

def STARTING : Status := "STARTING"

def PAUSED : Status := "PAUSED"

def FAILED : Status := "FAILED"

def UNKNOWN : Status := "UNKNOWN"

/-- ResourceInstanceCapacity from internal/omnistrate_api/types.go
(the LastObservedTimestamp field is carried by the wire type only and is
never read by the controller, so it is omitted). -/
structure ResourceInstanceCapacity where
  instanceID : String
  status : Status
  resourceID : String
  resourceAlias : String
  currentCapacity : Int
deriving DecidableEq, Repr

/-- Config from internal/config/config.go (durations as abstract Nat). -/
structure Config where
  cooldownDuration : Nat
  targetResource : String
  steps : Nat
  dryRun : Bool
  waitForActiveTimeout : Nat
  waitForActiveCheckInterval : Nat
deriving DecidableEq, Repr

/-- The mutable run-state fields of the Autoscaler struct
(internal/autoscaler/autoscaler.go): lastActionTime, scalingInProgress,
targetCapacity.  The config and the client handle are passed separately. -/
structure RunState where
  lastActionTime : Option Nat
  scalingInProgress : Bool
  targetCapacity : Int
deriving DecidableEq, Repr

/-- Externally visible actions performed by the controller, in order. -/
inductive Action where
  | cooldownCheck
  | sleep (d : Nat)
  | read
  | add (n : Nat)
  | remove (n : Nat)
deriving DecidableEq, Repr

/-- Outcome of one GetCurrentCapacity call observed by a poll tick. -/
inductive TickResult where
  | readError (msg : String)
  | capacity (cap : ResourceInstanceCapacity)
deriving DecidableEq, Repr

/-- One firing of the select statement in waitForActiveState: either the
context-done channel is ready, or the ticker fires and the provider read
returns the given result.  The timeout channel is modelled by fuel. -/
inductive PollEvent where
  | cancelled
  | tick (r : TickResult)
deriving DecidableEq, Repr

/-- The error kinds waitForActiveState can produce: ctx.Err() on a done
context, the timeout error, and the FAILED-state error. -/
inductive WaitError where
  | cancelled
  | timeout
  | failedState
deriving DecidableEq, Repr

/-- Number of ticker firings that fit before the timeout channel fires
(maxWaitTime over checkInterval). -/
def maxTicks (cfg : Config) : Nat :=
  cfg.waitForActiveTimeout / cfg.waitForActiveCheckInterval

/-- waitForActiveState from internal/autoscaler/autoscaler.go: the select
loop over ctx.Done, the timeout channel (fuel exhaustion here) and the
ticker.  A read error is logged and polling continues; an ACTIVE status
returns the observed capacity; a FAILED status is a terminal error; any
other status continues polling.  The returned list records the provider
reads that were issued. -/
def waitForActiveState (fuel : Nat) (events : List PollEvent) :
    Except WaitError ResourceInstanceCapacity × List Action :=
  match fuel, events with
  | 0, _ => (.error .timeout, [])
  | _ + 1, [] => (.error .timeout, [])
  | f + 1, e :: rest =>
    match e with
    | .cancelled => (.error .cancelled, [])
    | .tick (.readError _) =>
      let o := waitForActiveState f rest
      (o.1, .read :: o.2)
    | .tick (.capacity cap) =>
      if cap.status = ACTIVE then (.ok cap, [.read])
      else if cap.status = FAILED then (.error .failedState, [.read])
      else
        let o := waitForActiveState f rest
        (o.1, .read :: o.2)

/-- scaleUp from internal/autoscaler/autoscaler.go: it always requests
AddCapacity with the configured Steps value. -/
def scaleUp (cfg : Config) : Action :=
  .add cfg.steps

/-- scaleDown from internal/autoscaler/autoscaler.go: the removed amount
is Steps, capped at the current capacity (capacities reported by the
provider are non-negative, see the provider contract). -/
def scaleDown (cfg : Config) (currentCapacity : Int) : Action :=
  .remove (if currentCapacity ≤ (cfg.steps : Int) then currentCapacity.toNat else cfg.steps)

/-- The cooldown check at the top of each ScaleToTarget loop iteration:
when lastActionTime is non-zero and the elapsed time is below the
cooldown duration, the code sleeps for the remainder (a plain time.Sleep
that does not observe the context). -/
def cooldownTrace (cfg : Config) (s : RunState) (tStart : Nat) : List Action :=
  match s.lastActionTime with
  | none => [.cooldownCheck]
  | some t =>
    if tStart - t < cfg.cooldownDuration then
      [.cooldownCheck, .sleep (cfg.cooldownDuration - (tStart - t))]
    else
      [.cooldownCheck]

/-- Environment data consumed by one iteration of the convergence loop. -/
structure IterationEnv where
  ctxCancelled : Bool
  tStart : Nat
  pollEvents : List PollEvent
  mutResult : Except String Unit
  tMut : Nat
deriving Repr

/-- Result of a ScaleToTarget run.  outOfScript means the environment
script was exhausted while the loop would have kept iterating. -/
inductive ScaleResult where
  | ok
  | conflict (inflightTarget : Int)
  | pollFailed (e : WaitError)
  | mutationFailed (msg : String)
  | outOfScript
deriving DecidableEq, Repr

/-- Everything a ScaleToTarget run produces: the result, the action
trace, the run states observable between lock releases while the run is
in flight, the times of the successful mutations, and the final state. -/
structure RunOutcome where
  result : ScaleResult
  trace : List Action
  midStates : List RunState
  mutTimes : List Nat
  final : RunState
deriving Repr

/-- The for-loop body of ScaleToTarget (internal/autoscaler/autoscaler.go
lines 74-117): cooldown check and sleep, waitForActiveState, convergence
test, scaleUp or scaleDown, lastActionTime update on mutation success. -/
def scaleLoop (cfg : Config) (target : Int) : RunState → List IterationEnv → RunOutcome
  | s, [] => ⟨.outOfScript, [], [], [], s⟩
  | s, env :: rest =>
    let ctr := cooldownTrace cfg s env.tStart
    let w := waitForActiveState (maxTicks cfg) env.pollEvents
    match w.1 with
    | .error e => ⟨.pollFailed e, ctr ++ w.2, [], [], s⟩
    | .ok cap =>
      if cap.currentCapacity = target then
        ⟨.ok, ctr ++ w.2, [], [], s⟩
      else
        let mutAct := if cap.currentCapacity < target then scaleUp cfg else scaleDown cfg cap.currentCapacity
        match env.mutResult with
        | .error m => ⟨.mutationFailed m, ctr ++ w.2 ++ [mutAct], [], [], s⟩
        | .ok _ =>
          let s2 : RunState := { s with lastActionTime := some env.tMut }
          let o := scaleLoop cfg target s2 rest
          ⟨o.result, ctr ++ w.2 ++ mutAct :: o.trace, s2 :: o.midStates, env.tMut :: o.mutTimes, o.final⟩

/-- ScaleToTarget from internal/autoscaler/autoscaler.go: the conflict
guard (returning the stored in-flight target without touching anything),
the guard acquisition, the convergence loop, and the deferred clearing of
scalingInProgress and targetCapacity on every exit of the loop. -/
def ScaleToTarget (cfg : Config) (s : RunState) (target : Int) (envs : List IterationEnv) :
    RunOutcome :=
  if s.scalingInProgress then
    ⟨.conflict s.targetCapacity, [], [], [], s⟩
  else
    let s1 : RunState := { s with scalingInProgress := true, targetCapacity := target }
    let o := scaleLoop cfg target s1 envs
    ⟨o.result, o.trace, s1 :: o.midStates, o.mutTimes,
      { o.final with scalingInProgress := false, targetCapacity := 0 }⟩

/-- The snapshot struct returned by GetStatus
(ScalingStatus in internal/autoscaler/autoscaler.go). -/
structure ScalingStatus where
  currentCapacity : Int
  targetCapacity : Int
  status : Status
  scalingInProgress : Bool
  lastActionTime : Option Nat
  inCooldownPeriod : Bool
  cooldownRemaining : Int
  instanceID : String
  resourceID : String
  resourceAlias : String
deriving DecidableEq, Repr

/-- The derived cooldown fields computed at the end of GetStatus: when
lastActionTime is non-zero and the elapsed time is below the cooldown
duration, InCooldownPeriod is set and CooldownRemaining is the
difference; otherwise both keep their zero values. -/
def cooldownFields (cfg : Config) (last : Option Nat) (now : Int) : Bool × Int :=
  match last with
  | none => (false, 0)
  | some t =>
    if now - (t : Int) < (cfg.cooldownDuration : Int) then
      (true, (cfg.cooldownDuration : Int) - (now - (t : Int)))
    else
      (false, 0)

/-- The snapshot GetStatus builds on a successful provider read: a copy
of the observed capacity fields and the run-state fields, plus the
derived cooldown fields. -/
def buildStatus (cfg : Config) (s : RunState) (now : Int)
    (cap : ResourceInstanceCapacity) : ScalingStatus :=
  { currentCapacity := cap.currentCapacity
    targetCapacity := s.targetCapacity
    status := cap.status
    scalingInProgress := s.scalingInProgress
    lastActionTime := s.lastActionTime
    inCooldownPeriod := (cooldownFields cfg s.lastActionTime now).1
    cooldownRemaining := (cooldownFields cfg s.lastActionTime now).2
    instanceID := cap.instanceID
    resourceID := cap.resourceID
    resourceAlias := cap.resourceAlias }

/-- GetStatus from internal/autoscaler/autoscaler.go: one provider read
whose failure is returned directly, otherwise a snapshot of the observed
capacity and the run-state.  The returned RunState is the run-state after
the call (the method holds the lock but only reads). -/
def GetStatus (cfg : Config) (s : RunState) (now : Int)
    (read : Except String ResourceInstanceCapacity) :
    Except String ScalingStatus × List Action × RunState :=
  match read with
  | .error e => (.error e, [.read], s)
  | .ok cap => (.ok (buildStatus cfg s now cap), [.read], s)

/-- The canned response of the dry-run branch of
ClientImpl.GetCurrentCapacity (internal/omnistrate_api/client.go): only
ResourceAlias and CurrentCapacity are set; every other field keeps its
zero value, so Status is the empty string. -/
def dryRunCapacity (resourceAlias : String) : ResourceInstanceCapacity :=
  { instanceID := ""
    status := ""
    resourceID := ""
    resourceAlias := resourceAlias
    currentCapacity := 10 }

/-- ClientImpl.GetCurrentCapacity: the dry-run guard short-circuits with
the canned response; otherwise the HTTP exchange (abstracted as the
supplied wire outcome) decides the result. -/
def GetCurrentCapacity (cfg : Config) (resourceAlias : String)
    (wire : Except String ResourceInstanceCapacity) :
    Except String ResourceInstanceCapacity :=
  if cfg.dryRun then .ok (dryRunCapacity resourceAlias) else wire

/-- Last element of the list, or the default when the list is empty. -/
def lastOr : List Nat → Option Nat → Option Nat
  | [], d => d
  | t :: ts, _ => lastOr ts (some t)

/-- The run-state invariant of the spec: an idle reconciler stores no
stale target. -/
def runStateInv (s : RunState) : Prop :=
  s.scalingInProgress = false → s.targetCapacity = 0

/-- The same invariant read off a GetStatus snapshot. -/
def statusInv (q : ScalingStatus) : Prop :=
  q.scalingInProgress = false → q.targetCapacity = 0

/-- An event that the poll loop treats as a plain continue because the
status is one of the non-terminal ones. -/
def continuingEvent (e : PollEvent) : Bool :=
  match e with
  | .tick (.capacity cap) =>
    cap.status == STARTING || cap.status == PAUSED || cap.status == UNKNOWN
  | _ => false

/-- An event whose provider read failed at the transport level. -/
def readErrorEvent (e : PollEvent) : Bool :=
  match e with
  | .tick (.readError _) => true
  | _ => false

/-- Whether an action is a provider mutation (add or remove). -/
def isMutation (a : Action) : Bool :=
  match a with
  | .add _ => true
  | .remove _ => true
  | _ => false

/-- Whether an action is a sleep. -/
def isSleep (a : Action) : Bool :=
  match a with
  | .sleep _ => true
  | _ => false

section Scenarios

/-- Capacity observation with the given replica count, ACTIVE status. -/
def activeCap (n : Int) : ResourceInstanceCapacity :=
  { instanceID := "i", status := ACTIVE, resourceID := "rid",
    resourceAlias := "r", currentCapacity := n }

/-- Capacity observation in STARTING state. -/
def startingCapX : ResourceInstanceCapacity :=
  { instanceID := "i", status := STARTING, resourceID := "rid",
    resourceAlias := "r", currentCapacity := 2 }

/-- Capacity observation in FAILED state. -/
def failedCapX : ResourceInstanceCapacity :=
  { instanceID := "i", status := FAILED, resourceID := "rid",
    resourceAlias := "r", currentCapacity := 2 }

/-- Iteration whose single poll immediately observes ACTIVE at capacity n
and whose mutation (if any) succeeds. -/
def okIter (n : Int) : IterationEnv :=
  { ctxCancelled := false, tStart := 0,
    pollEvents := [.tick (.capacity (activeCap n))],
    mutResult := .ok (), tMut := 0 }

/-- okIter with an explicit mutation timestamp. -/
def mkIter (n : Int) (t : Nat) : IterationEnv :=
  { okIter n with tMut := t }

/-- Configuration of the C1 scenario: step 2, no cooldown. -/
def cfgStep2 : Config :=
  { cooldownDuration := 0, targetResource := "r", steps := 2,
    dryRun := false, waitForActiveTimeout := 10,
    waitForActiveCheckInterval := 1 }

/-- Same configuration with a cooldown of 10 time units. -/
def cfgCooldown10 : Config :=
  { cfgStep2 with cooldownDuration := 10 }

/-- Same configuration with the dry-run flag enabled. -/
def cfgDry : Config :=
  { cfgStep2 with dryRun := true }

/-- Fresh idle run-state. -/
def idleState : RunState :=
  { lastActionTime := none, scalingInProgress := false, targetCapacity := 0 }

/-- Idle run-state whose last action happened at time 0. -/
def cooledState : RunState :=
  { lastActionTime := some 0, scalingInProgress := false, targetCapacity := 0 }

/-- Run-state of a reconciler with a scaling operation in flight
towards target 7. -/
def busyState : RunState :=
  { lastActionTime := some 3, scalingInProgress := true, targetCapacity := 7 }

/-- Iteration entered with the caller context already cancelled; the
poll select observes the done channel at its first firing. -/
def cancelEnv : IterationEnv :=
  { ctxCancelled := true, tStart := 5, pollEvents := [.cancelled],
    mutResult := .ok (), tMut := 0 }

/-- The C1 scenario run: step 2, initial capacity 1, target 4, with the
provider applying each requested mutation before the next observation. -/
def oscillationRun : RunOutcome :=
  ScaleToTarget cfgStep2 idleState 4
    [okIter 1, okIter 3, okIter 5, okIter 3, okIter 5, okIter 3]

/-- The claim that cancellation is honored at the cooldown blocking
point: a run entered with a cancelled context must never block in the
cooldown sleep. -/
def claimCancellationHonored : Prop :=
  ∀ (cfg : Config) (s : RunState) (target : Int) (env : IterationEnv)
    (rest : List IterationEnv) (d : Nat),
    env.ctxCancelled = true →
    Action.sleep d ∉ (ScaleToTarget cfg s target (env :: rest)).trace

/-- The claim that a transport-level error on the first capacity read of
the poll loop is fatal: the loop must then finish with an error, whatever
the later events hold. -/
def claimFirstReadErrorFatal : Prop :=
  ∀ (f : Nat) (msg : String) (rest : List PollEvent),
    ∃ err, (waitForActiveState (f + 1) (.tick (.readError msg) :: rest)).1
      = .error err

end Scenarios

section Helpers

/-- The terminal statuses are distinct strings. -/
lemma failed_ne_active : FAILED ≠ ACTIVE := by decide

/-- A continuing observation carries none of the terminal statuses. -/
lemma continuing_not_terminal (c : ResourceInstanceCapacity)
    (h : continuingEvent (.tick (.capacity c)) = true) :
    ¬ c.status = ACTIVE ∧ ¬ c.status = FAILED := by
  simp only [continuingEvent, Bool.or_eq_true, beq_iff_eq] at h
  obtain (h | h) | h := h <;> rw [h] <;> exact ⟨by decide, by decide⟩

/-- The poll loop steps over a continuing observation. -/
lemma wait_continuing_step (f : Nat) (e : PollEvent) (rest : List PollEvent)
    (h : continuingEvent e = true) :
    (waitForActiveState (f + 1) (e :: rest)).1 = (waitForActiveState f rest).1 := by
  cases e with
  | cancelled => simp [continuingEvent] at h
  | tick r =>
    cases r with
    | readError m => simp [continuingEvent] at h
    | capacity c =>
      obtain ⟨hA, hF⟩ := continuing_not_terminal c h
      simp [waitForActiveState, hA, hF]

/-- Every action recorded by the poll loop is a provider read. -/
lemma wait_trace_reads :
    ∀ (evs : List PollEvent) (f : Nat) (a : Action),
      a ∈ (waitForActiveState f evs).2 → a = .read := by
  intro evs
  induction evs with
  | nil =>
    intro f a h
    cases f <;> simp [waitForActiveState] at h
  | cons e rest ih =>
    intro f a h
    cases f with
    | zero => simp [waitForActiveState] at h
    | succ f =>
      cases e with
      | cancelled => simp [waitForActiveState] at h
      | tick r =>
        cases r with
        | readError m =>
          simp only [waitForActiveState, List.mem_cons] at h
          rcases h with h | h
          · exact h
          · exact ih f a h
        | capacity cap =>
          by_cases hA : cap.status = ACTIVE
          · simp [waitForActiveState, hA] at h
            exact h
          · by_cases hF : cap.status = FAILED
            · simp [waitForActiveState, hA, hF, failed_ne_active] at h
              exact h
            · simp only [waitForActiveState, hA, hF, if_false, List.mem_cons] at h
              rcases h with h | h
              · exact h
              · exact ih f a h

/-- A successful poll issued at least one provider read. -/
lemma wait_ok_read :
    ∀ (evs : List PollEvent) (f : Nat) (cap : ResourceInstanceCapacity),
      (waitForActiveState f evs).1 = .ok cap →
      Action.read ∈ (waitForActiveState f evs).2 := by
  intro evs
  induction evs with
  | nil =>
    intro f cap h
    cases f <;> simp [waitForActiveState] at h
  | cons e rest ih =>
    intro f cap h
    cases f with
    | zero => simp [waitForActiveState] at h
    | succ f =>
      cases e with
      | cancelled => simp [waitForActiveState] at h
      | tick r =>
        cases r with
        | readError m =>
          simp [waitForActiveState]
        | capacity c =>
          by_cases hA : c.status = ACTIVE
          · simp [waitForActiveState, hA]
          · by_cases hF : c.status = FAILED
            · simp [waitForActiveState, hA, hF, failed_ne_active] at h
            · simp [waitForActiveState, hA, hF]

/-- The cooldown phase emits only the check and possibly one sleep. -/
lemma cooldownTrace_actions (cfg : Config) (s : RunState) (t : Nat) :
    ∀ a ∈ cooldownTrace cfg s t, a = .cooldownCheck ∨ ∃ d, a = .sleep d := by
  intro a h
  rcases hl : s.lastActionTime with _ | t0
  · simp only [cooldownTrace, hl, List.mem_singleton] at h
    exact Or.inl h
  · by_cases hc : t - t0 < cfg.cooldownDuration
    · simp only [cooldownTrace, hl, if_pos hc, List.mem_cons, List.mem_singleton] at h
      rcases h with h | h | h
      · exact Or.inl h
      · exact Or.inr ⟨_, h⟩
      · simp at h
    · simp only [cooldownTrace, hl, if_neg hc, List.mem_singleton] at h
      exact Or.inl h

/-- The cooldown check itself always happens. -/
lemma cooldownCheck_mem (cfg : Config) (s : RunState) (t : Nat) :
    Action.cooldownCheck ∈ cooldownTrace cfg s t := by
  rcases hl : s.lastActionTime with _ | t0
  · simp [cooldownTrace, hl]
  · by_cases hc : t - t0 < cfg.cooldownDuration <;> simp [cooldownTrace, hl, hc]

/-- The final state of the loop carries the time of the last successful
mutation, and the initial lastActionTime when there was none. -/
lemma scaleLoop_lastAction (cfg : Config) (target : Int) :
    ∀ (envs : List IterationEnv) (s : RunState),
      (scaleLoop cfg target s envs).final.lastActionTime
        = lastOr (scaleLoop cfg target s envs).mutTimes s.lastActionTime := by
  intro envs
  induction envs with
  | nil => intro s; simp [scaleLoop, lastOr]
  | cons env rest ih =>
    intro s
    cases hw : (waitForActiveState (maxTicks cfg) env.pollEvents).1 with
    | error e => simp [scaleLoop, hw, lastOr]
    | ok cap =>
      by_cases hc : cap.currentCapacity = target
      · simp [scaleLoop, hw, hc, lastOr]
      · cases hm : env.mutResult with
        | error m => simp [scaleLoop, hw, hc, hm, lastOr]
        | ok u =>
          have h2 := ih { s with lastActionTime := some env.tMut }
          simp only [scaleLoop, hw, hc, hm, if_false, lastOr] at h2 ⊢
          simpa [lastOr] using h2

/-- The loop never touches the scalingInProgress and targetCapacity
fields: the final state keeps the entry values. -/
lemma scaleLoop_final_flags (cfg : Config) (target : Int) :
    ∀ (envs : List IterationEnv) (s : RunState),
      (scaleLoop cfg target s envs).final.scalingInProgress = s.scalingInProgress
      ∧ (scaleLoop cfg target s envs).final.targetCapacity = s.targetCapacity := by
  intro envs
  induction envs with
  | nil => intro s; simp [scaleLoop]
  | cons env rest ih =>
    intro s
    cases hw : (waitForActiveState (maxTicks cfg) env.pollEvents).1 with
    | error e => simp [scaleLoop, hw]
    | ok cap =>
      by_cases hc : cap.currentCapacity = target
      · simp [scaleLoop, hw, hc]
      · cases hm : env.mutResult with
        | error m => simp [scaleLoop, hw, hc, hm]
        | ok u =>
          have h2 := ih { s with lastActionTime := some env.tMut }
          simp only [scaleLoop, hw, hc, hm, if_false] at h2 ⊢
          simpa using h2

/-- Every in-flight intermediate state keeps the entry values of the
scalingInProgress and targetCapacity fields. -/
lemma scaleLoop_mid_flags (cfg : Config) (target : Int) :
    ∀ (envs : List IterationEnv) (s : RunState) (st : RunState),
      st ∈ (scaleLoop cfg target s envs).midStates →
      st.scalingInProgress = s.scalingInProgress
      ∧ st.targetCapacity = s.targetCapacity := by
  intro envs
  induction envs with
  | nil => intro s st h; simp [scaleLoop] at h
  | cons env rest ih =>
    intro s st h
    cases hw : (waitForActiveState (maxTicks cfg) env.pollEvents).1 with
    | error e => simp [scaleLoop, hw] at h
    | ok cap =>
      by_cases hc : cap.currentCapacity = target
      · simp [scaleLoop, hw, hc] at h
      · cases hm : env.mutResult with
        | error m => simp [scaleLoop, hw, hc, hm] at h
        | ok u =>
          simp only [scaleLoop, hw, hc, hm, if_false, List.mem_cons] at h
          rcases h with h | h
          · subst h; simp
          · simpa using ih { s with lastActionTime := some env.tMut } st h

end Helpers

section Claims

/-- C1: in the spec scenario current=1, target=4, step=2, the code does
not issue adds of min(step, gap): scaleUp always requests the full
configured step, so the run issues add 2, add 2 (overshooting to 5),
then remove 2, and oscillates between 3 and 5 without ever converging to
4.  An add of 1, which the claimed min rule requires as the second
mutation, never occurs. -/
theorem scaleToTarget_full_step_overshoots :
    oscillationRun.trace.filter isMutation
      = [.add 2, .add 2, .remove 2, .add 2, .remove 2, .add 2]
    ∧ oscillationRun.result = .outOfScript
    ∧ Action.add 1 ∉ oscillationRun.trace := by
  exact ⟨by decide, by decide, by decide⟩

/-- C2: a ScaleToTarget call entered while scalingInProgress is already
true returns the conflict error carrying the stored in-flight target,
issues no provider call at all (empty action trace), exposes no
intermediate state, performs no mutation, and leaves the whole run-state
(including lastActionTime) unchanged. -/
theorem scaleToTarget_conflict_reject (cfg : Config) (s : RunState) (target : Int)
    (envs : List IterationEnv) (h : s.scalingInProgress = true) :
    ScaleToTarget cfg s target envs
      = ⟨.conflict s.targetCapacity, [], [], [], s⟩ := by
  simp [ScaleToTarget, h]

theorem scaleToTarget_conflict_reject_witness :
    busyState.scalingInProgress = true
    ∧ ScaleToTarget cfgStep2 busyState 4 [okIter 1]
        = ⟨.conflict 7, [], [], [], busyState⟩ :=
  ⟨rfl, scaleToTarget_conflict_reject cfgStep2 busyState 4 [okIter 1] rfl⟩

/-- C3: the health poll is the claimed state machine: after any prefix of
continuing observations (STARTING, PAUSED or UNKNOWN) within the timeout
budget, an ACTIVE observation terminates successfully with the observed
capacity, a FAILED observation terminates with the FAILED-state error
regardless of any later events, and a run of continuing observations
that never reaches a terminal state ends in the timeout error. -/
theorem waitForActiveState_state_machine :
    (∀ (pre : List PollEvent) (fuel : Nat) (cap : ResourceInstanceCapacity)
        (rest : List PollEvent),
        (∀ e ∈ pre, continuingEvent e = true) → pre.length < fuel →
        cap.status = ACTIVE →
        (waitForActiveState fuel (pre ++ .tick (.capacity cap) :: rest)).1 = .ok cap)
    ∧ (∀ (pre : List PollEvent) (fuel : Nat) (cap : ResourceInstanceCapacity)
        (rest : List PollEvent),
        (∀ e ∈ pre, continuingEvent e = true) → pre.length < fuel →
        cap.status = FAILED →
        (waitForActiveState fuel (pre ++ .tick (.capacity cap) :: rest)).1
          = .error .failedState)
    ∧ (∀ (events : List PollEvent) (fuel : Nat),
        (∀ e ∈ events, continuingEvent e = true) →
        (waitForActiveState fuel events).1 = .error .timeout) := by
  refine ⟨?_, ?_, ?_⟩
  · intro pre
    induction pre with
    | nil =>
      intro fuel cap rest _ hlen hs
      cases fuel with
      | zero => omega
      | succ f => simp [waitForActiveState, hs]
    | cons e pre ih =>
      intro fuel cap rest hcont hlen hs
      cases fuel with
      | zero => omega
      | succ f =>
        rw [List.cons_append,
          wait_continuing_step f e _ (hcont e (List.mem_cons_self e pre))]
        exact ih f cap rest (fun x hx => hcont x (List.mem_cons_of_mem e hx))
          (by simpa using hlen) hs
  · intro pre
    induction pre with
    | nil =>
      intro fuel cap rest _ hlen hs
      cases fuel with
      | zero => omega
      | succ f => simp [waitForActiveState, hs, failed_ne_active]
    | cons e pre ih =>
      intro fuel cap rest hcont hlen hs
      cases fuel with
      | zero => omega
      | succ f =>
        rw [List.cons_append,
          wait_continuing_step f e _ (hcont e (List.mem_cons_self e pre))]
        exact ih f cap rest (fun x hx => hcont x (List.mem_cons_of_mem e hx))
          (by simpa using hlen) hs
  · intro events
    induction events with
    | nil =>
      intro fuel _
      cases fuel <;> simp [waitForActiveState]
    | cons e rest ih =>
      intro fuel hcont
      cases fuel with
      | zero => simp [waitForActiveState]
      | succ f =>
        rw [wait_continuing_step f e rest (hcont e (List.mem_cons_self e rest))]
        exact ih f (fun x hx => hcont x (List.mem_cons_of_mem e hx))

theorem waitForActiveState_state_machine_witness :
    ((∀ e ∈ [PollEvent.tick (.capacity startingCapX)], continuingEvent e = true)
      ∧ [PollEvent.tick (.capacity startingCapX)].length < 3
      ∧ (activeCap 2).status = ACTIVE
      ∧ (waitForActiveState 3
          ([PollEvent.tick (.capacity startingCapX)]
            ++ .tick (.capacity (activeCap 2)) :: [])).1 = .ok (activeCap 2))
    ∧ (failedCapX.status = FAILED
      ∧ (waitForActiveState 3
          ([PollEvent.tick (.capacity startingCapX)]
            ++ .tick (.capacity failedCapX) :: [])).1 = .error .failedState)
    ∧ (waitForActiveState 2
        [PollEvent.tick (.capacity startingCapX),
         PollEvent.tick (.capacity startingCapX),
         PollEvent.tick (.capacity startingCapX)]).1 = .error .timeout := by
  refine ⟨⟨by decide, by decide, rfl, ?_⟩, ⟨rfl, ?_⟩, ?_⟩
  · exact waitForActiveState_state_machine.1 _ 3 _ _ (by decide) (by decide) rfl
  · exact waitForActiveState_state_machine.2.1 _ 3 _ _ (by decide) (by decide) rfl
  · exact waitForActiveState_state_machine.2.2 _ 2 (by decide)

/-- C4 counterexample: the cooldown wait is a plain sleep that does not
observe the caller context, so the claim that cancellation is honored at
every blocking point fails at the cooldown sleep: with a 10-unit
cooldown, a last action at time 0 and the context already cancelled at
entry at time 5, the run still performs the full 5-unit sleep before the
cancellation is noticed at the subsequent poll. -/
theorem cancellation_claim_counterexample : ¬ claimCancellationHonored := by
  intro h
  exact h cfgCooldown10 cooledState 4 cancelEnv [] 5 rfl (by decide)

/-- C4 amended: cancellation is honored at the poll ticker wait and
surfaces as the distinct cancellation error kind (different from the
FAILED-state and timeout kinds), and ScaleToTarget forwards it as a poll
failure; the cooldown sleep however is not a cancellation point: the run
executes the whole cooldown phase unchanged before the poll observes the
done context. -/
theorem cancellation_poll_distinct :
    (∀ (f : Nat) (rest : List PollEvent),
        (waitForActiveState (f + 1) (.cancelled :: rest)).1 = .error .cancelled)
    ∧ (WaitError.cancelled ≠ WaitError.failedState
        ∧ WaitError.cancelled ≠ WaitError.timeout)
    ∧ (∀ (cfg : Config) (s : RunState) (target : Int) (env : IterationEnv)
        (rest : List IterationEnv) (evs : List PollEvent),
        s.scalingInProgress = false → env.pollEvents = .cancelled :: evs →
        0 < maxTicks cfg →
        (ScaleToTarget cfg s target (env :: rest)).result = .pollFailed .cancelled
        ∧ (ScaleToTarget cfg s target (env :: rest)).trace
            = cooldownTrace cfg s env.tStart) := by
  refine ⟨fun f rest => rfl, ⟨by decide, by decide⟩, ?_⟩
  intro cfg s target env rest evs hs hp hm
  rcases hfuel : maxTicks cfg with _ | m
  · omega
  · have hw : (waitForActiveState (maxTicks cfg) env.pollEvents)
        = (.error .cancelled, []) := by
      rw [hfuel, hp]
      rfl
    constructor
    · simp [ScaleToTarget, hs, scaleLoop, hw]
    · simp [ScaleToTarget, hs, scaleLoop, hw]
      rfl

theorem cancellation_poll_distinct_witness :
    (cooledState.scalingInProgress = false
      ∧ cancelEnv.pollEvents = .cancelled :: []
      ∧ 0 < maxTicks cfgCooldown10)
    ∧ (waitForActiveState 1 [.cancelled]).1 = .error .cancelled
    ∧ (ScaleToTarget cfgCooldown10 cooledState 4 [cancelEnv]).result
        = .pollFailed .cancelled
    ∧ (ScaleToTarget cfgCooldown10 cooledState 4 [cancelEnv]).trace
        = cooldownTrace cfgCooldown10 cooledState cancelEnv.tStart := by
  refine ⟨⟨rfl, rfl, by decide⟩, cancellation_poll_distinct.1 0 [], ?_, ?_⟩
  · exact (cancellation_poll_distinct.2.2 cfgCooldown10 cooledState 4 cancelEnv []
      [] rfl rfl (by decide)).1
  · exact (cancellation_poll_distinct.2.2 cfgCooldown10 cooledState 4 cancelEnv []
      [] rfl rfl (by decide)).2

/-- C5 counterexample: a transport-level error on the first read of the
poll loop is not fatal: with the first read failing and the second
observing ACTIVE, the poll succeeds, so no error kind exists that the
first failing read would be forwarded as. -/
theorem first_read_error_not_fatal : ¬ claimFirstReadErrorFatal := by
  intro h
  obtain ⟨err, he⟩ := h 4 ("boom") [.tick (.capacity (activeCap 3))]
  have hok : (waitForActiveState (4 + 1)
      (.tick (.readError ("boom")) :: [.tick (.capacity (activeCap 3))])).1
      = .ok (activeCap 3) := rfl
  rw [hok] at he
  exact Except.noConfusion he

/-- C5 amended: there is no pre-loop read in the code; every
transport-level read error, including the one on the very first read,
is logged and polling simply continues with the next tick, and a poll
budget consisting of read errors only ends in the timeout error, never
in a forwarded transport error. -/
theorem read_errors_continue_polling :
    (∀ (f : Nat) (msg : String) (rest : List PollEvent),
        (waitForActiveState (f + 1) (.tick (.readError msg) :: rest)).1
          = (waitForActiveState f rest).1)
    ∧ (∀ (events : List PollEvent) (fuel : Nat),
        (∀ e ∈ events, readErrorEvent e = true) →
        (waitForActiveState fuel events).1 = .error .timeout) := by
  refine ⟨fun f msg rest => rfl, ?_⟩
  intro events
  induction events with
  | nil =>
    intro fuel _
    cases fuel <;> simp [waitForActiveState]
  | cons e rest ih =>
    intro fuel hre
    cases fuel with
    | zero => simp [waitForActiveState]
    | succ f =>
      have he := hre e (List.mem_cons_self e rest)
      cases e with
      | cancelled => simp [readErrorEvent] at he
      | tick r =>
        cases r with
        | readError m =>
          simp only [waitForActiveState]
          exact ih f (fun x hx => hre x (List.mem_cons_of_mem _ hx))
        | capacity c => simp [readErrorEvent] at he

theorem read_errors_continue_polling_witness :
    (waitForActiveState 5
        [PollEvent.tick (.readError ("boom")), .tick (.capacity (activeCap 3))]).1
      = (waitForActiveState 4 [PollEvent.tick (.capacity (activeCap 3))]).1
    ∧ (∀ e ∈ [PollEvent.tick (.readError ("net"))], readErrorEvent e = true)
    ∧ (waitForActiveState 7 [PollEvent.tick (.readError ("net"))]).1
        = .error .timeout :=
  ⟨read_errors_continue_polling.1 4 ("boom") [.tick (.capacity (activeCap 3))],
   by decide,
   read_errors_continue_polling.2 [PollEvent.tick (.readError ("net"))] 7 (by decide)⟩

/-- C6: when the capacity observed by the first (successful) health poll
already equals the target, ScaleToTarget returns success, its trace
contains no add or remove call, and both the cooldown check and at least
one provider read (the health poll) did occur. -/
theorem scaleToTarget_noop_at_target (cfg : Config) (s : RunState) (target : Int)
    (env : IterationEnv) (rest : List IterationEnv) (cap : ResourceInstanceCapacity)
    (hs : s.scalingInProgress = false)
    (hw : (waitForActiveState (maxTicks cfg) env.pollEvents).1 = .ok cap)
    (ht : cap.currentCapacity = target) :
    (ScaleToTarget cfg s target (env :: rest)).result = .ok
    ∧ (∀ a ∈ (ScaleToTarget cfg s target (env :: rest)).trace, isMutation a = false)
    ∧ Action.read ∈ (ScaleToTarget cfg s target (env :: rest)).trace
    ∧ Action.cooldownCheck ∈ (ScaleToTarget cfg s target (env :: rest)).trace := by
  have htr : (ScaleToTarget cfg s target (env :: rest)).trace
      = cooldownTrace cfg
          { s with scalingInProgress := true, targetCapacity := target } env.tStart
        ++ (waitForActiveState (maxTicks cfg) env.pollEvents).2 := by
    simp [ScaleToTarget, hs, scaleLoop, hw, ht]
  refine ⟨by simp [ScaleToTarget, hs, scaleLoop, hw, ht], ?_, ?_, ?_⟩
  · intro a ha
    rw [htr] at ha
    rcases List.mem_append.1 ha with h | h
    · rcases cooldownTrace_actions _ _ _ a h with h1 | ⟨d, h1⟩ <;> rw [h1] <;> rfl
    · rw [wait_trace_reads _ _ a h]
      rfl
  · rw [htr]
    exact List.mem_append.2 (Or.inr (wait_ok_read _ _ _ hw))
  · rw [htr]
    exact List.mem_append.2 (Or.inl (cooldownCheck_mem _ _ _))

theorem scaleToTarget_noop_at_target_witness :
    idleState.scalingInProgress = false
    ∧ (waitForActiveState (maxTicks cfgStep2) (okIter 3).pollEvents).1
        = .ok (activeCap 3)
    ∧ (activeCap 3).currentCapacity = 3
    ∧ (ScaleToTarget cfgStep2 idleState 3 [okIter 3]).result = .ok
    ∧ (∀ a ∈ (ScaleToTarget cfgStep2 idleState 3 [okIter 3]).trace,
        isMutation a = false)
    ∧ Action.read ∈ (ScaleToTarget cfgStep2 idleState 3 [okIter 3]).trace
    ∧ Action.cooldownCheck ∈ (ScaleToTarget cfgStep2 idleState 3 [okIter 3]).trace := by
  have h := scaleToTarget_noop_at_target cfgStep2 idleState 3 (okIter 3) []
    (activeCap 3) rfl rfl rfl
  exact ⟨rfl, rfl, rfl, h.1, h.2.1, h.2.2.1, h.2.2.2⟩

/-- C7: every run-state a concurrent reader can observe (the states at
lock releases while a run is in flight, and the state left behind by any
exit path, conflict included) satisfies the invariant that an idle
reconciler stores target 0, and therefore no GetStatus snapshot built
from such a state reports scalingInProgress false with a non-zero
target. -/
theorem runState_invariant_observable (cfg : Config) (s : RunState) (target : Int)
    (envs : List IterationEnv) :
    ∀ st, (st ∈ (ScaleToTarget cfg s target envs).midStates
        ∨ st = (ScaleToTarget cfg s target envs).final) →
      runStateInv st
      ∧ ∀ (cfg2 : Config) (now : Int) (cap : ResourceInstanceCapacity),
          statusInv (buildStatus cfg2 st now cap) := by
  intro st hst
  suffices hmain : runStateInv st by
    exact ⟨hmain, fun cfg2 now cap hq => hmain hq⟩
  by_cases hs : s.scalingInProgress = true
  · simp only [ScaleToTarget, hs, if_true, List.not_mem_nil, false_or] at hst
    intro hf
    rw [hst] at hf
    exact absurd hs (by simp [hf])
  · have hs' : s.scalingInProgress = false := by simpa using hs
    simp only [ScaleToTarget, hs', Bool.false_eq_true, if_false] at hst
    rcases hst with hmem | hfin
    · rcases List.mem_cons.1 hmem with h1 | h2
      · intro hf
        rw [h1] at hf
        simp at hf
      · intro hf
        have hflag := (scaleLoop_mid_flags cfg target envs _ st h2).1
        rw [hf] at hflag
        simp at hflag
    · intro _
      rw [hfin]

theorem runState_invariant_observable_witness :
    ((ScaleToTarget cfgStep2 idleState 3 [okIter 3]).final
        = (ScaleToTarget cfgStep2 idleState 3 [okIter 3]).final)
    ∧ runStateInv (ScaleToTarget cfgStep2 idleState 3 [okIter 3]).final
    ∧ statusInv (buildStatus cfgStep2
        (ScaleToTarget cfgStep2 idleState 3 [okIter 3]).final 0 (activeCap 3)) :=
  have h := runState_invariant_observable cfgStep2 idleState 3 [okIter 3]
    (ScaleToTarget cfgStep2 idleState 3 [okIter 3]).final (Or.inr rfl)
  ⟨rfl, h.1, h.2 cfgStep2 0 (activeCap 3)⟩

/-- C8: GetStatus leaves the run-state unchanged, and after any
ScaleToTarget run the stored lastActionTime equals the time recorded at
the last successful provider mutation of that run, or the entry value
when the run performed no successful mutation (conflict rejection, poll
failure, failed mutation, or the already-at-target exit). -/
theorem lastActionTime_frame :
    (∀ (cfg : Config) (s : RunState) (now : Int)
        (r : Except String ResourceInstanceCapacity),
        (GetStatus cfg s now r).2.2 = s)
    ∧ (∀ (cfg : Config) (s : RunState) (target : Int) (envs : List IterationEnv),
        (ScaleToTarget cfg s target envs).final.lastActionTime
          = lastOr (ScaleToTarget cfg s target envs).mutTimes s.lastActionTime)
    ∧ (∀ (cfg : Config) (s : RunState) (target : Int) (envs : List IterationEnv),
        (ScaleToTarget cfg s target envs).mutTimes = [] →
        (ScaleToTarget cfg s target envs).final.lastActionTime
          = s.lastActionTime) := by
  have hmain : ∀ (cfg : Config) (s : RunState) (target : Int)
      (envs : List IterationEnv),
      (ScaleToTarget cfg s target envs).final.lastActionTime
        = lastOr (ScaleToTarget cfg s target envs).mutTimes s.lastActionTime := by
    intro cfg s target envs
    by_cases hs : s.scalingInProgress = true
    · simp [ScaleToTarget, hs, lastOr]
    · have hs' : s.scalingInProgress = false := by simpa using hs
      have h := scaleLoop_lastAction cfg target envs
        { s with scalingInProgress := true, targetCapacity := target }
      simp only [ScaleToTarget, hs', Bool.false_eq_true, if_false]
      simpa using h
  refine ⟨fun cfg s now r => by cases r <;> rfl, hmain, ?_⟩
  intro cfg s target envs hmt
  rw [hmain cfg s target envs, hmt]
  rfl

theorem lastActionTime_frame_witness :
    (GetStatus cfgStep2 idleState 0 (.ok (activeCap 3))).2.2 = idleState
    ∧ (ScaleToTarget cfgStep2 idleState 3 [mkIter 1 7, okIter 3]).final.lastActionTime
        = lastOr (ScaleToTarget cfgStep2 idleState 3 [mkIter 1 7, okIter 3]).mutTimes
            idleState.lastActionTime
    ∧ (ScaleToTarget cfgStep2 idleState 3 [okIter 3]).mutTimes = []
    ∧ (ScaleToTarget cfgStep2 idleState 3 [okIter 3]).final.lastActionTime
        = idleState.lastActionTime :=
  ⟨lastActionTime_frame.1 cfgStep2 idleState 0 (.ok (activeCap 3)),
   lastActionTime_frame.2.1 cfgStep2 idleState 3 [mkIter 1 7, okIter 3],
   by decide,
   lastActionTime_frame.2.2 cfgStep2 idleState 3 [okIter 3] (by decide)⟩

/-- C9: GetStatus issues exactly one provider read, returns the read
failure directly, mutates no run-state, and its derived cooldown fields
satisfy the claimed formulas: with a non-zero lastActionTime the
remaining cooldown is max(0, cooldownDuration - (now - lastActionTime))
and the in-cooldown flag holds exactly when that value is positive; with
a zero lastActionTime both fields are false and zero. -/
theorem getStatus_contract :
    (∀ (cfg : Config) (s : RunState) (now : Int)
        (r : Except String ResourceInstanceCapacity),
        (GetStatus cfg s now r).2.1 = [Action.read]
        ∧ (GetStatus cfg s now r).2.2 = s)
    ∧ (∀ (cfg : Config) (s : RunState) (now : Int) (e : String),
        (GetStatus cfg s now (.error e)).1 = .error e)
    ∧ (∀ (cfg : Config) (s : RunState) (now : Int)
        (cap : ResourceInstanceCapacity),
        (buildStatus cfg s now cap).inCooldownPeriod
            = (cooldownFields cfg s.lastActionTime now).1
        ∧ (buildStatus cfg s now cap).cooldownRemaining
            = (cooldownFields cfg s.lastActionTime now).2)
    ∧ (∀ (cfg : Config) (t : Nat) (now : Int),
        (cooldownFields cfg (some t) now).2
          = max 0 ((cfg.cooldownDuration : Int) - (now - (t : Int)))
        ∧ ((cooldownFields cfg (some t) now).1 = true ↔
            0 < max 0 ((cfg.cooldownDuration : Int) - (now - (t : Int)))))
    ∧ (∀ (cfg : Config) (now : Int), cooldownFields cfg none now = (false, 0)) := by
  refine ⟨fun cfg s now r => by cases r <;> exact ⟨rfl, rfl⟩,
    fun cfg s now e => rfl,
    fun cfg s now cap => ⟨rfl, rfl⟩, ?_, fun cfg now => rfl⟩
  intro cfg t now
  by_cases h : now - (t : Int) < (cfg.cooldownDuration : Int)
  · constructor
    · simp only [cooldownFields, if_pos h]
      omega
    · simp only [cooldownFields, if_pos h, true_iff]
      omega
  · constructor
    · simp only [cooldownFields, if_neg h]
      omega
    · simp only [cooldownFields, if_neg h]
      constructor
      · intro hfalse
        exact absurd hfalse (by simp)
      · intro hpos
        omega

theorem getStatus_contract_witness :
    (GetStatus cfgCooldown10 cooledState 5 (.ok (activeCap 3))).2.1 = [Action.read]
    ∧ (GetStatus cfgCooldown10 cooledState 5 (.error ("x"))).1 = .error ("x")
    ∧ (cooldownFields cfgCooldown10 (some 0) 5).2
        = max 0 ((cfgCooldown10.cooldownDuration : Int) - ((5 : Int) - ((0 : Nat) : Int)))
    ∧ cooldownFields cfgCooldown10 none 5 = (false, 0) :=
  ⟨(getStatus_contract.1 cfgCooldown10 cooledState 5 (.ok (activeCap 3))).1,
   getStatus_contract.2.1 cfgCooldown10 cooledState 5 ("x"),
   (getStatus_contract.2.2.2.1 cfgCooldown10 0 5).1,
   getStatus_contract.2.2.2.2 cfgCooldown10 5⟩

/-- C10: with the dry-run flag enabled, every GetCurrentCapacity call
returns the canned response with CurrentCapacity 10 and the zero-value
Status (the empty string), which is none of the five enumerated
statuses; consequently a poll tick observing this response never matches
the ACTIVE terminal condition and the health poll just continues. -/
theorem getCurrentCapacity_dryRun (cfg : Config) (resAlias : String)
    (wire : Except String ResourceInstanceCapacity) (h : cfg.dryRun = true) :
    GetCurrentCapacity cfg resAlias wire = .ok (dryRunCapacity resAlias)
    ∧ (dryRunCapacity resAlias).currentCapacity = 10
    ∧ (dryRunCapacity resAlias).status = ""
    ∧ ((dryRunCapacity resAlias).status ≠ ACTIVE
        ∧ (dryRunCapacity resAlias).status ≠ STARTING
        ∧ (dryRunCapacity resAlias).status ≠ PAUSED
        ∧ (dryRunCapacity resAlias).status ≠ FAILED
        ∧ (dryRunCapacity resAlias).status ≠ UNKNOWN)
    ∧ (∀ (f : Nat) (rest : List PollEvent),
        (waitForActiveState (f + 1)
          (.tick (.capacity (dryRunCapacity resAlias)) :: rest)).1
          = (waitForActiveState f rest).1) := by
  have hstat : (dryRunCapacity resAlias).status = "" := rfl
  have hA : ¬ (dryRunCapacity resAlias).status = ACTIVE := by rw [hstat]; decide
  have hF : ¬ (dryRunCapacity resAlias).status = FAILED := by rw [hstat]; decide
  refine ⟨by simp [GetCurrentCapacity, h], rfl, rfl,
    ⟨hA, by rw [hstat]; decide, by rw [hstat]; decide, hF,
      by rw [hstat]; decide⟩, ?_⟩
  intro f rest
  simp [waitForActiveState, hA, hF]

theorem getCurrentCapacity_dryRun_witness :
    cfgDry.dryRun = true
    ∧ GetCurrentCapacity cfgDry ("db") (.error ("unused"))
        = .ok (dryRunCapacity ("db"))
    ∧ (dryRunCapacity ("db")).currentCapacity = 10
    ∧ (dryRunCapacity ("db")).status = "" :=
  have h := getCurrentCapacity_dryRun cfgDry ("db") (.error ("unused")) rfl
  ⟨rfl, h.1, h.2.1, h.2.2.1⟩

end Claims

end AutoscalerModel
